import Mathlib

/-!
Verification of the zarf-testing package validation engine.

This file gives a shallow embedding, in Lean 4, of the core of the
cpepper96/zarf-testing repository: the manifest data model
(`pkg/util`), the package locator (`pkg/zarf/discovery`), the
validation pipeline (`pkg/zarf/validator.go`) and the semantic-version
helpers (`pkg/util/util.go`).  Go functions are translated into pure
Lean functions; all I/O (filesystem reads, subprocess execution, YAML
unmarshalling, Git queries) is abstracted into an explicit environment
record whose fields model the outcomes of the corresponding external
calls, exactly at the boundaries the source code crosses.

Strings are handled through helper functions, defined below, that
mirror the semantics of the Go `strings` package functions the source
uses (`Contains`, `HasPrefix`, `TrimSpace`, `Trim`, `Split`,
`SplitN`, `ToLower`, `Count`).
-/

namespace ZarfTesting

/-! ## Go `strings` package semantics, on `List Char` -/

/-- `isPreL pre l` : `pre` is a prefix of `l` (Go `strings.HasPrefix`). -/
def isPreL : List Char → List Char → Bool
  | [], _ => true
  | _ :: _, [] => false
  | p :: ps, c :: cs => p = c && isPreL ps cs

/-- Go `strings.Contains s sub` : `sub` occurs as a contiguous substring. -/
def containsL : List Char → List Char → Bool
  | [], sub => sub.isEmpty
  | c :: t, sub => isPreL sub (c :: t) || containsL t sub

/-- Split at the first occurrence of `sep`, returning the parts before and
after it (Go `strings.SplitN(s, sep, 2)` when it finds a separator). -/
def splitFirstL (sep : List Char) : List Char → Option (List Char × List Char)
  | [] => if sep.isEmpty then some ([], []) else none
  | c :: t =>
    if isPreL sep (c :: t) then some ([], (c :: t).drop sep.length)
    else
      match splitFirstL sep t with
      | none => none
      | some (a, b) => some (c :: a, b)

/-- The element at index 1 of Go `strings.Split(s, sep)`: the segment
between the first and second occurrence of `sep` (the remainder when
there is no second occurrence).  Only meaningful when `sep` occurs. -/
def segOneL (sep l : List Char) : List Char :=
  match splitFirstL sep l with
  | none => []
  | some (_, rest) =>
    match splitFirstL sep rest with
    | none => rest
    | some (a, _) => a

/-- Go `strings.Split(s, sep)` for a one-character separator. -/
def splitCharL (sep : Char) : List Char → List (List Char)
  | [] => [[]]
  | c :: t =>
    match splitCharL sep t with
    | [] => [[c]]
    | h :: r => if c = sep then [] :: h :: r else (c :: h) :: r

/-- Go `strings.Split(s, "\n")`. -/
def splitLinesL (l : List Char) : List (List Char) := splitCharL '\n' l

/-- The whitespace characters relevant to the scanned YAML content
(Go `unicode.IsSpace` restricted to ASCII). -/
def isSpaceChar (c : Char) : Bool :=
  c = ' ' || c = '\t' || c = '\n' || c = '\r'

def trimLeftL (p : Char → Bool) (l : List Char) : List Char := l.dropWhile p

def trimRightL (p : Char → Bool) (l : List Char) : List Char :=
  (l.reverse.dropWhile p).reverse

def trimBothL (p : Char → Bool) (l : List Char) : List Char :=
  trimRightL p (trimLeftL p l)

/-- Characters of the cutset `"\"'"` used by the image-pinning pass. -/
def isQuoteChar (c : Char) : Bool := c = '"' || c = '\''

def countCharL (c : Char) (l : List Char) : Nat :=
  l.foldl (fun n x => if x = c then n + 1 else n) 0

/-! ## The same operations, on `String` -/

def strContains (s sub : String) : Bool := containsL s.data sub.data

def strStarts (s pre : String) : Bool := isPreL pre.data s.data

/-- Go `strings.TrimSpace`. -/
def trimSpaceS (s : String) : String := String.mk (trimBothL isSpaceChar s.data)

/-- Go `strings.Trim(s, "\"'")`. -/
def trimQuotesS (s : String) : String := String.mk (trimBothL isQuoteChar s.data)

/-- Go `strings.TrimPrefix`. -/
def trimPreS (s pre : String) : String :=
  if strStarts s pre then String.mk (s.data.drop pre.data.length) else s

def splitLinesS (s : String) : List String := (splitLinesL s.data).map String.mk

/-- Go `strings.SplitN(s, sep, 2)[1]` when `sep` occurs in `s`. -/
def afterFirstS (s sep : String) : Option String :=
  (splitFirstL sep.data s.data).map fun p => String.mk p.2

/-- Go `strings.Split(s, sep)[1]` when `sep` occurs in `s`. -/
def segOneS (s sep : String) : String := String.mk (segOneL sep.data s.data)

/-- Go `strings.ToLower` (ASCII). -/
def toLowerS (s : String) : String := String.mk (s.data.map Char.toLower)

/-- Go `len(s)` : byte length of the UTF-8 encoding. -/
def goLen (s : String) : Nat := s.data.foldl (fun n c => n + c.utf8Size) 0

/-- Go `strings.Count(s, sub)` for a single-character `sub`. -/
def countCharS (s : String) (c : Char) : Nat := countCharL c s.data

/-- Model of Go `filepath.Join(a, b)` for the joins the source performs. -/
def pathJoin (a b : String) : String := a ++ "/" ++ b

/-- Model of Go `filepath.Dir`: everything before the last `/`
(`"."` when there is no separator). -/
def pathDir (s : String) : String :=
  match splitFirstL ['/'] s.data.reverse with
  | none => "."
  | some (_, rest) =>
    match rest.reverse with
    | [] => "/"
    | l => String.mk l

/-! ## Semantic versions

The source imports `github.com/Masterminds/semver` (v1).  The parts of
that library the repository exercises — `NewVersion`, `Version.Compare`,
and caret/tilde constraint validation — are modelled here following the
v1 library's semantics (anchored `^`/`~` ranges, semver precedence with
prerelease identifiers, build metadata ignored in comparisons, and the
rule that a prerelease version never satisfies a non-prerelease
constraint). -/

structure SemVer where
  major : Nat
  minor : Nat
  patch : Nat
  pre : String
  meta : String
  deriving DecidableEq, Repr

def isDigitC (c : Char) : Bool := '0' ≤ c && c ≤ '9'

def isIdentC (c : Char) : Bool :=
  isDigitC c || ('a' ≤ c && c ≤ 'z') || ('A' ≤ c && c ≤ 'Z') || c = '-'

def natOfDigits (l : List Char) : Nat :=
  l.foldl (fun n c => n * 10 + (c.toNat - '0'.toNat)) 0

/-- Parse a nonempty run of digits at the head of the input. -/
def parseNumPart (l : List Char) : Option (Nat × List Char) :=
  let ds := l.takeWhile isDigitC
  if ds.isEmpty then none else some (natOfDigits ds, l.dropWhile isDigitC)

/-- Parse an optional `.digits` part (absent when the input does not
start with a dot; a dot not followed by digits is a parse error). -/
def parseOptDotNum : List Char → Option (Nat × List Char)
  | '.' :: r =>
    match parseNumPart r with
    | none => none
    | some (n, r') => some (n, r')
  | l => some (0, l)

/-- Dot-separated nonempty identifiers over `[0-9A-Za-z-]`, the shape the
library's version regex accepts for prerelease and metadata fields. -/
def validDottedIdents (l : List Char) : Bool :=
  (splitCharL '.' l).all fun p => !p.isEmpty && p.all isIdentC

def parseOptPre : List Char → Option (String × List Char)
  | '-' :: r =>
    let p := r.takeWhile (fun c => c ≠ '+')
    let rest := r.dropWhile (fun c => c ≠ '+')
    if validDottedIdents p then some (String.mk p, rest) else none
  | l => some ("", l)

def parseOptMeta : List Char → Option String
  | '+' :: r => if validDottedIdents r then some (String.mk r) else none
  | [] => some ""
  | _ => none

/-- Model of `semver.NewVersion` (v1): optional `v` prefix, major with
optional minor/patch (missing parts default to zero), optional
prerelease and build metadata, anchored at both ends. -/
def parseSemVer (s : String) : Option SemVer :=
  let l := if isPreL ['v'] s.data then s.data.drop 1 else s.data
  match parseNumPart l with
  | none => none
  | some (maj, r1) =>
    match parseOptDotNum r1 with
    | none => none
    | some (min, r2) =>
      match parseOptDotNum r2 with
      | none => none
      | some (pat, r3) =>
        match parseOptPre r3 with
        | none => none
        | some (pre, r4) =>
          match parseOptMeta r4 with
          | none => none
          | some meta => some ⟨maj, min, pat, pre, meta⟩

def cmpCharList : List Char → List Char → Ordering
  | [], [] => .eq
  | [], _ :: _ => .lt
  | _ :: _, [] => .gt
  | a :: as, b :: bs =>
    if a < b then .lt else if b < a then .gt else cmpCharList as bs

/-- Compare two prerelease identifiers: both-numeric compares
numerically, a numeric identifier precedes an alphanumeric one, and two
alphanumeric identifiers compare in ASCII order. -/
def cmpIdent (a b : List Char) : Ordering :=
  let an := a.all isDigitC
  let bn := b.all isDigitC
  if an && bn then compare (natOfDigits a) (natOfDigits b)
  else if an then .lt
  else if bn then .gt
  else cmpCharList a b

def cmpIdentList : List (List Char) → List (List Char) → Ordering
  | [], [] => .eq
  | [], _ :: _ => .lt
  | _ :: _, [] => .gt
  | a :: as, b :: bs =>
    match cmpIdent a b with
    | .eq => cmpIdentList as bs
    | o => o

/-- Model of `Version.Compare` (v1): ordinal triple comparison, then
prerelease precedence (a version without prerelease is higher); build
metadata is ignored. -/
def cmpSemVer (a b : SemVer) : Ordering :=
  match compare a.major b.major with
  | .eq =>
    match compare a.minor b.minor with
    | .eq =>
      match compare a.patch b.patch with
      | .eq =>
        if a.pre = "" && b.pre = "" then .eq
        else if a.pre = "" then .gt
        else if b.pre = "" then .lt
        else cmpIdentList (splitCharL '.' a.pre.data) (splitCharL '.' b.pre.data)
      | o => o
    | o => o
  | o => o

def ltSemVer (a b : SemVer) : Bool := cmpSemVer a b = .lt

/-- Model of `util.CompareVersions`: parse both sides and compare. -/
def CompareVersions (left right : String) : Option Ordering :=
  match parseSemVer left, parseSemVer right with
  | some a, some b => some (cmpSemVer a b)
  | _, _ => none

inductive ConstraintOp | caret | tilde
  deriving DecidableEq, Repr

structure SemVerConstraint where
  op : ConstraintOp
  con : SemVer
  deriving DecidableEq, Repr

/-- Model of `semver.NewConstraint(fmt.Sprintf("%s %s", op, v.String()))`
as performed by `BreakingChangeAllowed`: the library reparses the
operator and the rendered version; for a version produced by
`Version.String()` this round-trip always succeeds and yields the same
version as the anchor, so the constraint is the pair directly. -/
def newAnchoredConstraint (op : ConstraintOp) (anchor : SemVer) : SemVerConstraint :=
  ⟨op, anchor⟩

/-- Model of v1 `Constraints.Validate` for a single caret or tilde
constraint: `^A.B.C` means `>= A.B.C` with the same major; `~A.B.C`
means `>= A.B.C` with the same major and minor (`~0.0.0` accepts
everything); a prerelease version never satisfies a non-prerelease
constraint. -/
def validateConstraint (c : SemVerConstraint) (v : SemVer) : Bool :=
  if v.pre ≠ "" && c.con.pre = "" then false
  else
    match c.op with
    | .caret =>
      if ltSemVer v c.con then false else v.major = c.con.major
    | .tilde =>
      if ltSemVer v c.con then false
      else if c.con.major = 0 && c.con.minor = 0 && c.con.patch = 0 then true
      else if v.major ≠ c.con.major then false
      else if v.minor ≠ c.con.minor then false
      else true

/-- Model of `util.BreakingChangeAllowed` (pkg/util/util.go).  Returns
the boolean result paired with the error value: parse failures surface
as an error with `false`; on the success path the code returns
`!minor`, where `minor` is the constraint-validation verdict, together
with the multierror built from the validation reasons (non-nil exactly
when validation failed). -/
def BreakingChangeAllowed (left right : String) : Bool × Option String :=
  match parseSemVer left with
  | none => (false, some "failed parsing semantic version")
  | some leftVersion =>
    match parseSemVer right with
    | none => (false, some "failed parsing semantic version")
    | some rightVersion =>
      let constraintOp : ConstraintOp :=
        if leftVersion.major = 0 then .tilde else .caret
      let c := newAnchoredConstraint constraintOp leftVersion
      let minor := validateConstraint c rightVersion
      (!minor, if minor then none else some "constraint validation failed")

/-- Modelled from the spec (§4.3 version-comparison semantics), for
comparison with the source's `BreakingChangeAllowed`: "given `previous`
and `next`, compute whether `next` satisfies a compatible-range
constraint anchored at `previous` (caret-style for major ≥ 1,
tilde-style for major 0), returning true if `next` falls inside that
range (i.e., the change is NOT breaking) and false otherwise". -/
def specBreakingChangeAllowed (left right : String) : Option Bool :=
  match parseSemVer left, parseSemVer right with
  | some lv, some rv =>
    let op : ConstraintOp := if lv.major = 0 then .tilde else .caret
    some (validateConstraint ⟨op, lv⟩ rv)
  | _, _ => none

/-! ## Manifest data model (pkg/util, zarf.yaml types)

Field defaults mirror Go zero values (the result of unmarshalling a
document that omits the field). -/

structure ZarfMetadata where
  name : String := ""
  description : String := ""
  version : String := ""
  architecture : String := ""
  deprecated : Bool := false
  deriving DecidableEq, Repr

structure ZarfVariable where
  name : String := ""
  description : String := ""
  default : String := ""
  prompt : Bool := false
  deriving DecidableEq, Repr

structure ZarfConstant where
  name : String := ""
  value : String := ""
  deriving DecidableEq, Repr

structure ZarfComponentOnlyCluster where
  architecture : String := ""
  distros : List String := []
  deriving DecidableEq, Repr

structure ZarfComponentOnly where
  localOS : String := ""
  cluster : ZarfComponentOnlyCluster := {}
  deriving DecidableEq, Repr

structure ZarfFile where
  source : String := ""
  target : String := ""
  shasum : String := ""
  executable : Bool := false
  extractPath : String := ""
  deriving DecidableEq, Repr

structure ZarfChartVariable where
  name : String := ""
  description : String := ""
  path : String := ""
  deriving DecidableEq, Repr

structure ZarfChart where
  name : String := ""
  version : String := ""
  url : String := ""
  repoName : String := ""
  gitPath : String := ""
  localPath : String := ""
  Namespace : String := ""
  releaseName : String := ""
  noWait : Bool := false
  valuesFiles : List String := []
  Variables : List ZarfChartVariable := []
  deriving DecidableEq, Repr

structure ZarfManifest where
  name : String := ""
  Namespace : String := ""
  files : List String := []
  kustomizeAllowAnyOf : List String := []
  kustomizations : List String := []
  deriving DecidableEq, Repr

structure ZarfContainerTarget where
  Namespace : String := ""
  selector : String := ""
  container : String := ""
  path : String := ""
  deriving DecidableEq, Repr

structure ZarfDataInjection where
  source : String := ""
  target : ZarfContainerTarget := {}
  compress : Bool := false
  deriving DecidableEq, Repr

structure ZarfComponentScripts where
  showOutput : Bool := false
  timeoutSeconds : Nat := 0
  retry : Bool := false
  prepare : List String := []
  before : List String := []
  after : List String := []
  deriving DecidableEq, Repr

structure ZarfComponent where
  name : String := ""
  description : String := ""
  default : Bool := false
  required : Bool := false
  only : ZarfComponentOnly := {}
  group : String := ""
  depsWith : List String := []
  files : List ZarfFile := []
  charts : List ZarfChart := []
  manifests : List ZarfManifest := []
  images : List String := []
  repos : List String := []
  dataInjections : List ZarfDataInjection := []
  scripts : ZarfComponentScripts := {}
  deriving DecidableEq, Repr

structure ZarfYaml where
  kind : String := ""
  metadata : ZarfMetadata := {}
  Variables : List ZarfVariable := []
  constants : List ZarfConstant := []
  components : List ZarfComponent := []
  deriving DecidableEq, Repr

/-- `ValidationResult` from pkg/zarf/validator.go. -/
structure ValidationResult where
  packagePath : String := ""
  valid : Bool := false
  errors : List String := []
  warnings : List String := []
  deriving DecidableEq, Repr

/-! ## Environment

All effects the validator performs are reads of this record: it fixes,
for one validation run, the outcome of every external call the Go code
makes (filesystem, YAML unmarshalling, and the captured output of the
subprocesses run through the `exec` collaborator). -/

structure Env where
  /-- `os.Stat(path)` succeeds (the path exists). -/
  statExists : String → Bool
  /-- `os.ReadFile(path)`: the content, or `none` on error. -/
  readFile : String → Option String
  /-- `os.Stat(path).Size()` in bytes, `none` when stat fails. -/
  fileSize : String → Option Nat
  /-- `yaml.Unmarshal` of a content string into a `ZarfYaml`. -/
  parseZarf : String → Except String ZarfYaml
  /-- `RunProcessAndCaptureOutput("zarf", "version")` succeeds. -/
  zarfVersionOk : Bool
  /-- `CreateProcess("zarf", "dev", "lint")` succeeds. -/
  lintCreateOk : Bool
  /-- `zarf dev lint` in the package directory exits without error. -/
  lintOk : Bool
  /-- combined output of `zarf dev lint`. -/
  lintOutput : String
  /-- captured output of `git show HEAD~1:<path>`, `none` on error. -/
  gitShowPrev : String → Option String
  /-- captured output of `cat <path>` (the Go code discards its error). -/
  catFile : String → String

/-- `util.ReadZarfYaml`: read the file at `path` and unmarshal it. -/
def ReadZarfYaml (env : Env) (path : String) : Except String ZarfYaml :=
  match env.readFile path with
  | none => .error "could not read 'zarf.yaml'"
  | some yamlBytes => env.parseZarf yamlBytes

/-- `IsZarfPackage`: the directory directly contains a `zarf.yaml`. -/
def IsZarfPackage (env : Env) (dir : String) : Bool :=
  env.statExists (pathJoin dir "zarf.yaml")

/-! ## Validation pipeline (pkg/zarf/validator.go) -/

/-- One line of `zarf dev lint` output, classified as in the
`err != nil` branch of `validateWithSDK`. -/
def parseLintFailLine (r : ValidationResult) (rawLine : String) : ValidationResult :=
  let line := trimSpaceS rawLine
  if line ≠ "" && !strContains line "Using build directory" then
    if strContains line " ERR " then
      match afterFirstS line " ERR " with
      | some msg => { r with errors := r.errors ++ [msg] }
      | none => { r with errors := r.errors ++ [line] }
    else if strContains line " WRN " then
      match afterFirstS line " WRN " with
      | some msg => { r with warnings := r.warnings ++ [msg] }
      | none => { r with warnings := r.warnings ++ [line] }
    else if strContains line "ERROR" || strContains line "error" ||
            strContains line "FAIL" || strContains line "fail" then
      { r with errors := r.errors ++ [line] }
    else r
  else r

/-- One line of `zarf dev lint` output, classified as in the success
branch of `validateWithSDK` (warnings only). -/
def parseLintOkLine (r : ValidationResult) (rawLine : String) : ValidationResult :=
  let line := trimSpaceS rawLine
  if line ≠ "" && strContains line " WRN " then
    match afterFirstS line " WRN " with
    | some msg => { r with warnings := r.warnings ++ [msg] }
    | none => { r with warnings := r.warnings ++ [line] }
  else r

/-- `validateVersionIncrement`: compare against the `HEAD~1` revision of
the manifest obtained through Git. -/
def validateVersionIncrement (env : Env) (packagePath : String)
    (result : ValidationResult) : Except String ValidationResult :=
  let currentZarfPath := pathJoin packagePath "zarf.yaml"
  match ReadZarfYaml env currentZarfPath with
  | .error e => .error ("failed to read current zarf.yaml: " ++ e)
  | .ok currentContent =>
    match env.gitShowPrev currentZarfPath with
    | none =>
      .ok { result with warnings := result.warnings ++
              ["Could not retrieve previous package version for comparison"] }
    | some previousContent =>
      match env.parseZarf previousContent with
      | .error _ =>
        .ok { result with warnings := result.warnings ++
                ["Could not parse previous package version for comparison"] }
      | .ok previousZarf =>
        if currentContent.metadata.version = previousZarf.metadata.version then
          let currentYamlStr := env.catFile currentZarfPath
          if currentYamlStr ≠ previousContent then
            .ok { result with
                  errors := result.errors ++
                    ["Package content changed but version not incremented (still " ++
                      currentContent.metadata.version ++ ")"]
                  valid := false }
          else .ok result
        else .ok result

/-- The loop body of `validateImagePinning`: one raw content line,
threading the `inImagesSection` flag. -/
def pinScanLine (st : Bool × ValidationResult) (originalLine : String) :
    Bool × ValidationResult :=
  let inImagesSection := st.1
  let r := st.2
  let line := trimSpaceS originalLine
  if strContains line "images:" then (true, r)
  else
    let inImagesSection :=
      if !strStarts originalLine " " && !strStarts originalLine "\t" &&
          strContains line ":" then false
      else inImagesSection
    let r :=
      if inImagesSection && strStarts line "- " then
        let imageName := trimQuotesS (trimSpaceS (trimPreS line "- "))
        if strContains imageName ":" && !strContains imageName "@sha256:" then
          if !strStarts imageName "\x7b\x7b" && !strStarts imageName "$\x7b" then
            { r with warnings := r.warnings ++
                ["Image not pinned with digest - " ++ imageName] }
          else r
        else r
      else r
    let r :=
      if strContains line "image:" then
        let imagePart := trimQuotesS (trimSpaceS (segOneS line "image:"))
        if strContains imagePart ":" && !strContains imagePart "@sha256:" then
          if !strStarts imagePart "\x7b\x7b" && !strStarts imagePart "$\x7b" then
            { r with warnings := r.warnings ++
                ["Image not pinned with digest - " ++ imagePart] }
          else r
        else r
      else r
    (inImagesSection, r)

/-- `validateImagePinning`: line-based scan of the raw manifest text. -/
def validateImagePinning (env : Env) (packagePath : String)
    (result : ValidationResult) : Except String ValidationResult :=
  match env.readFile (pathJoin packagePath "zarf.yaml") with
  | none => .error "failed to read zarf.yaml for image pinning validation"
  | some content =>
    .ok ((splitLinesS content).foldl pinScanLine (false, result)).2

/-- `isValidComponentName`: no spaces, already lowercase. -/
def isValidComponentName (name : String) : Bool :=
  if strContains name " " then false
  else if toLowerS name ≠ name then false
  else true

/-- The component loop of `validateComponents`: errors and warnings it
appends, threading the `componentNames` seen-set. -/
def componentChecks : List ZarfComponent → List String → List String × List String
  | [], _ => ([], [])
  | c :: cs, seen =>
    let dupErrs :=
      if seen.contains c.name then ["Duplicate component name: " ++ c.name] else []
    let nameWarns :=
      if !isValidComponentName c.name then
        ["Component name '" ++ c.name ++
          "' doesn't follow naming conventions (lowercase, hyphens, no spaces)"]
      else []
    let redundantWarns :=
      if c.required && c.default then
        ["Component '" ++ c.name ++ "' is both required and default (redundant)"]
      else []
    let emptyWarns :=
      if c.files.isEmpty && c.charts.isEmpty && c.manifests.isEmpty &&
          c.images.isEmpty && c.repos.isEmpty && c.dataInjections.isEmpty then
        ["Component '" ++ c.name ++
          "' appears to be empty (no files, charts, manifests, images, etc.)"]
      else []
    let (es, ws) := componentChecks cs (c.name :: seen)
    (dupErrs ++ es, nameWarns ++ redundantWarns ++ emptyWarns ++ ws)

/-- `validateComponents`. -/
def validateComponents (env : Env) (packagePath : String)
    (result : ValidationResult) : Except String ValidationResult :=
  match ReadZarfYaml env (pathJoin packagePath "zarf.yaml") with
  | .error e => .error ("failed to read zarf.yaml for component validation: " ++ e)
  | .ok zarfYaml =>
    if zarfYaml.components.isEmpty then
      .ok { result with warnings := result.warnings ++
              ["Package has no components defined"] }
    else
      .ok { result with
              errors := result.errors ++ (componentChecks zarfYaml.components []).1
              warnings := result.warnings ++ (componentChecks zarfYaml.components []).2 }

/-- The `componentMap` lookup: the Go map is built by iterating the
component list with assignment, so a later component with the same name
overwrites an earlier one — lookup finds the last match. -/
def lookupComp (comps : List ZarfComponent) (name : String) : Option ZarfComponent :=
  comps.reverse.find? fun c => c.name = name

/-- `hasDependencyCycle`, fuelled.  The Go function recurses with a
shared mutated `visited` map; here the pair result threads that state,
and the dependency loop is the fold (once a cycle is found the
remaining iterations are no-ops, matching Go's early return).  The fuel
only bounds recursion depth: each recursive step marks a
previously-unvisited declared component, so depth never exceeds the
number of components plus one. -/
def hasDependencyCycleF : Nat → String → List ZarfComponent → String →
    List String → Bool × List String
  | 0, _, _, _, visited => (false, visited)
  | fuel + 1, start, comps, current, visited =>
    if current = start && visited.length > 0 then (true, visited)
    else if visited.contains current then (false, visited)
    else
      let visited := current :: visited
      match lookupComp comps current with
      | none => (false, visited)
      | some component =>
        component.depsWith.foldl
          (fun st dep =>
            if st.1 then st else hasDependencyCycleF fuel start comps dep st.2)
          (false, visited)

/-- `hasDependencyCycle(start, current, componentMap, make(map[string]bool))`
as called by the dependency pass, with sufficient fuel. -/
def hasDependencyCycle (start current : String) (comps : List ZarfComponent) : Bool :=
  (hasDependencyCycleF (comps.length + 1) start comps current []).1

/-- The errors `validateComponentDependencies` appends for one
component: per dependency an existence error and a cycle error, then,
in a second loop, self-dependency errors. -/
def compDepErrors (comps : List ZarfComponent) (c : ZarfComponent) : List String :=
  (c.depsWith.flatMap fun dep =>
    (if (lookupComp comps dep).isNone then
      ["Component '" ++ c.name ++ "' depends on non-existent component '" ++ dep ++ "'"]
    else []) ++
    (if hasDependencyCycle c.name dep comps then
      ["Circular dependency detected between '" ++ c.name ++ "' and '" ++ dep ++ "'"]
    else [])) ++
  (c.depsWith.filterMap fun dep =>
    if dep = c.name then
      some ("Component '" ++ c.name ++ "' cannot depend on itself")
    else none)

/-- `validateComponentDependencies`. -/
def validateComponentDependencies (env : Env) (packagePath : String)
    (result : ValidationResult) : Except String ValidationResult :=
  match ReadZarfYaml env (pathJoin packagePath "zarf.yaml") with
  | .error e => .error ("failed to read zarf.yaml for dependency validation: " ++ e)
  | .ok zarfYaml =>
    if zarfYaml.components.isEmpty then .ok result
    else
      .ok { result with errors := result.errors ++
              zarfYaml.components.flatMap (compDepErrors zarfYaml.components) }

/-- `checkManifestSecurity`: `none` models the file-read error (the
caller then records its fallback warning). -/
def checkManifestSecurity (env : Env) (manifestPath componentName : String) :
    Option (List String) :=
  match env.readFile manifestPath with
  | none => none
  | some contentStr =>
    some
      ((if strContains contentStr "privileged: true" then
          ["Component '" ++ componentName ++ "' manifest may use privileged containers"]
        else []) ++
      (if strContains contentStr "hostNetwork: true" then
          ["Component '" ++ componentName ++ "' manifest uses host networking"]
        else []) ++
      (if strContains contentStr "hostPID: true" || strContains contentStr "hostIPC: true" then
          ["Component '" ++ componentName ++ "' manifest uses host PID or IPC"]
        else []))

def secretPatterns : List String :=
  ["password=", "PASSWORD=", "token=", "TOKEN=", "secret=", "SECRET=",
   "key=", "KEY=", "api_key", "API_KEY", "aws_access", "AWS_ACCESS"]

/-- `containsPotentialSecrets`. -/
def containsPotentialSecrets (script : String) : Bool :=
  secretPatterns.any fun pattern =>
    strContains (toLowerS script) (toLowerS pattern)

def untrustedRegistries : List String := ["docker.io/", "index.docker.io/"]

/-- `isUntrustedRegistry`. -/
def isUntrustedRegistry (image : String) : Bool :=
  if !strContains image "/" || (!strContains image "." && countCharS image '/' = 1) then
    true
  else untrustedRegistries.any fun registry => strStarts image registry

/-- Warnings `validateSecurityBestPractices` appends for one component. -/
def securityCompWarnings (env : Env) (packagePath : String) (c : ZarfComponent) :
    List String :=
  (c.manifests.flatMap fun manifest => manifest.files.flatMap fun file =>
    match checkManifestSecurity env (pathJoin packagePath file) c.name with
    | none => ["Failed to analyze manifest security for " ++ file ++ ": read error"]
    | some ws => ws) ++
  (if !c.scripts.prepare.isEmpty || !c.scripts.before.isEmpty ||
      !c.scripts.after.isEmpty then
    (c.scripts.prepare ++ c.scripts.before ++ c.scripts.after).filterMap fun script =>
      if containsPotentialSecrets script then
        some ("Component '" ++ c.name ++
          "' script may contain hardcoded secrets or sensitive data")
      else none
  else []) ++
  (c.images.filterMap fun image =>
    if isUntrustedRegistry image then
      some ("Component '" ++ c.name ++
        "' uses image from potentially untrusted registry: " ++ image)
    else none)

/-- `validateSecurityBestPractices`. -/
def validateSecurityBestPractices (env : Env) (packagePath : String)
    (result : ValidationResult) : Except String ValidationResult :=
  match ReadZarfYaml env (pathJoin packagePath "zarf.yaml") with
  | .error e => .error ("failed to read zarf.yaml for security validation: " ++ e)
  | .ok zarfYaml =>
    .ok { result with warnings := result.warnings ++
            zarfYaml.components.flatMap (securityCompWarnings env packagePath) }

/-- Warnings `validateResourceConstraints` appends for one component. -/
def resourceCompWarnings (env : Env) (packagePath : String) (c : ZarfComponent) :
    List String :=
  (c.files.filterMap fun file =>
    match env.fileSize (pathJoin packagePath file.source) with
    | none => none
    | some size =>
      let sizeInMB := size / (1024 * 1024)
      if sizeInMB > 100 then
        some ("Component '" ++ c.name ++ "' includes large file (" ++
          toString sizeInMB ++ "MB): " ++ file.source)
      else none) ++
  (if c.images.length > 10 then
    ["Component '" ++ c.name ++ "' includes many images (" ++
      toString c.images.length ++ ") which may impact package size"]
  else []) ++
  (c.charts.filterMap fun chart =>
    let hasResourceLimits := chart.valuesFiles.any fun valuesFile =>
      match env.readFile (pathJoin packagePath valuesFile) with
      | some content => strContains content "limits:" || strContains content "requests:"
      | none => false
    if !hasResourceLimits then
      some ("Chart '" ++ chart.name ++ "' in component '" ++ c.name ++
        "' may not specify resource limits")
    else none)

/-- `validateResourceConstraints`. -/
def validateResourceConstraints (env : Env) (packagePath : String)
    (result : ValidationResult) : Except String ValidationResult :=
  match ReadZarfYaml env (pathJoin packagePath "zarf.yaml") with
  | .error e => .error ("failed to read zarf.yaml for resource validation: " ++ e)
  | .ok zarfYaml =>
    .ok { result with warnings := result.warnings ++
            zarfYaml.components.flatMap (resourceCompWarnings env packagePath) }

/-- `validateWithSDK`: the full CLI-delegation pipeline. -/
def validateWithSDK (env : Env) (packagePath : String) :
    Except String ValidationResult :=
  let result : ValidationResult :=
    { packagePath := packagePath, valid := true, errors := [], warnings := [] }
  if !env.zarfVersionOk then
    .error "zarf CLI not found - please install Zarf CLI for full validation"
  else if !env.lintCreateOk then
    .error "failed to create zarf process"
  else
    let outputStr := trimSpaceS env.lintOutput
    let result :=
      if !env.lintOk then
        let result := { result with valid := false }
        if outputStr ≠ "" then
          (splitLinesS outputStr).foldl parseLintFailLine result
        else result
      else
        let result := { result with valid := true }
        if outputStr ≠ "" then
          (splitLinesS outputStr).foldl parseLintOkLine result
        else result
    match validateVersionIncrement env packagePath result with
    | .error e => .error ("version increment validation failed: " ++ e)
    | .ok result =>
      match validateImagePinning env packagePath result with
      | .error e => .error ("image pinning validation failed: " ++ e)
      | .ok result =>
        match validateComponents env packagePath result with
        | .error e => .error ("component validation failed: " ++ e)
        | .ok result =>
          match validateComponentDependencies env packagePath result with
          | .error e => .error ("component dependency validation failed: " ++ e)
          | .ok result =>
            match validateSecurityBestPractices env packagePath result with
            | .error e => .error ("security validation failed: " ++ e)
            | .ok result =>
              match validateResourceConstraints env packagePath result with
              | .error e => .error ("resource validation failed: " ++ e)
              | .ok result => .ok result

/-- `validateBasic`: the reduced fallback validation. -/
def validateBasic (env : Env) (packagePath : String) :
    Except String ValidationResult :=
  let result : ValidationResult :=
    { packagePath := packagePath, valid := true, errors := [], warnings := [] }
  match ReadZarfYaml env (pathJoin packagePath "zarf.yaml") with
  | .error e =>
    .ok { result with
          valid := false
          errors := result.errors ++ ["Failed to parse zarf.yaml: " ++ e] }
  | .ok zarfYaml =>
    let result :=
      if zarfYaml.kind = "" then
        { result with
            errors := result.errors ++ ["Missing 'kind' field in zarf.yaml"]
            valid := false }
      else if zarfYaml.kind ≠ "ZarfPackageConfig" then
        { result with
            errors := result.errors ++
              ["Invalid kind '" ++ zarfYaml.kind ++ "', expected 'ZarfPackageConfig'"]
            valid := false }
      else result
    let result :=
      if zarfYaml.metadata.name = "" then
        { result with
            errors := result.errors ++ ["Missing package name in metadata"]
            valid := false }
      else result
    let result :=
      if zarfYaml.metadata.version = "" then
        { result with warnings := result.warnings ++ ["No version specified in metadata"] }
      else result
    let result :=
      if zarfYaml.metadata.description = "" then
        { result with warnings := result.warnings ++ ["No description provided in metadata"] }
      else result
    let result :=
      if zarfYaml.metadata.name ≠ "" && goLen zarfYaml.metadata.name > 63 then
        { result with
            errors := result.errors ++
              ["Package name must be 63 characters or less"]
            valid := false }
      else result
    .ok result

/-- `ValidatePackage`.  The boolean argument and result thread the
validator's sticky `UseSDK` flag. -/
def ValidatePackage (env : Env) (useSDK : Bool) (packagePath : String) :
    Except String ValidationResult × Bool :=
  let result : ValidationResult :=
    { packagePath := packagePath, valid := false, errors := [], warnings := [] }
  if !IsZarfPackage env packagePath then
    (.ok { result with errors := result.errors ++
            ["Directory does not contain a zarf.yaml file"] }, useSDK)
  else if useSDK then
    match validateWithSDK env packagePath with
    | .error e =>
      let _abandoned := { result with warnings := result.warnings ++
        ["Zarf CLI validation failed, falling back to basic validation: " ++ e] }
      (validateBasic env packagePath, false)
    | .ok sdkResult =>
      (.ok { sdkResult with warnings := sdkResult.warnings ++
              ["Validated using Zarf CLI"] }, useSDK)
  else (validateBasic env packagePath, useSDK)

/-- The validator's `ValidatePackages` method: validate each path in
order, aborting the batch on the first fatal error. -/
def ValidatePackagesV (env : Env) :
    Bool → List String → Except String (List ValidationResult) × Bool
  | useSDK, [] => (.ok [], useSDK)
  | useSDK, path :: paths =>
    match ValidatePackage env useSDK path with
    | (.error e, u) => (.error ("failed to validate package " ++ path ++ ": " ++ e), u)
    | (.ok r, u) =>
      match ValidatePackagesV env u paths with
      | (.error e, u') => (.error e, u')
      | (.ok rs, u') => (.ok (r :: rs), u')

/-- `HasValidationErrors`: true iff some result has `Valid == false`. -/
def HasValidationErrors (results : List ValidationResult) : Bool :=
  results.any fun result => !result.valid

/-! ## Package locator (FindZarfPackages) -/

/-- One entry delivered by `filepath.Walk`. -/
structure WalkEntry where
  path : String
  name : String
  isDir : Bool
  deriving DecidableEq, Repr

/-- The filesystem as seen by the locator: existence of a path, and the
entries a recursive walk of a root delivers (an error models a walk
failure). -/
structure WalkFS where
  statExists : String → Bool
  walk : String → Except String (List WalkEntry)

/-- `findPackagesInDirectory`: a missing root contributes an empty list
and no error; otherwise every directory directly containing a
`zarf.yaml` file is collected. -/
def findPackagesInDirectory (fs : WalkFS) (dir : String) :
    Except String (List String) :=
  if !fs.statExists dir then .ok []
  else
    match fs.walk dir with
    | .error e => .error ("error walking directory " ++ dir ++ ": " ++ e)
    | .ok entries =>
      .ok (entries.filterMap fun entry =>
        if entry.name = "zarf.yaml" && !entry.isDir then some (pathDir entry.path)
        else none)

/-- `FindZarfPackages`: union of per-root results, aborting on error. -/
def FindZarfPackages (fs : WalkFS) : List String → Except String (List String)
  | [] => .ok []
  | dir :: dirs =>
    match findPackagesInDirectory fs dir with
    | .error e => .error ("failed to find packages in directory " ++ dir ++ ": " ++ e)
    | .ok packages =>
      match FindZarfPackages fs dirs with
      | .error e => .error e
      | .ok rest => .ok (packages ++ rest)

/-! ## Helper lemmas -/

theorem sdata_append (s t : String) : (s ++ t).data = s.data ++ t.data := by
  cases s; cases t; rfl

theorem strAppend_cancel_left {p a b : String} (h : p ++ a = p ++ b) : a = b := by
  have hd := congrArg String.data h
  rw [sdata_append, sdata_append] at hd
  have := List.append_cancel_left hd
  cases a; cases b; exact congrArg String.mk this

/-- Fuel-monotone fact about the DFS state: the threaded visited set
never shrinks. -/
theorem hdcF_len_mono (fuel : Nat) :
    ∀ (start : String) (comps : List ZarfComponent) (current : String)
      (visited : List String),
      visited.length ≤ (hasDependencyCycleF fuel start comps current visited).2.length := by
  induction fuel with
  | zero =>
    intro start comps current visited
    simp [hasDependencyCycleF]
  | succ n ih =>
    intro start comps current visited
    have fold : ∀ (deps : List String) (st : Bool × List String),
        st.2.length ≤ ((deps.foldl (fun st dep =>
          if st.1 then st else hasDependencyCycleF n start comps dep st.2) st)).2.length := by
      intro deps
      induction deps with
      | nil => intro st; simp
      | cons d ds ihd =>
        intro st
        simp only [List.foldl_cons]
        by_cases hb : st.1
        · simpa [hb] using ihd st
        · rw [if_neg hb]
          exact le_trans (ih start comps d st.2)
            (ihd (hasDependencyCycleF n start comps d st.2))
    simp only [hasDependencyCycleF]
    split
    · simp
    · split
      · simp
      · cases hl : lookupComp comps current with
        | none => simp
        | some comp =>
          calc visited.length ≤ (current :: visited).length := by simp
            _ ≤ _ := fold comp.depsWith (false, current :: visited)

/-- Reaching `start` with a nonempty visited set reports a cycle. -/
theorem hdcF_at_start (m : Nat) (start : String) (comps : List ZarfComponent)
    (vis : List String) (hv : vis ≠ []) :
    hasDependencyCycleF (m + 1) start comps start vis = (true, vis) := by
  have hlen : 0 < vis.length := List.length_pos.mpr hv
  simp [hasDependencyCycleF, hlen]

/-- Once the dependency fold has found a cycle it stays found. -/
theorem hdcFold_keeps_true (m : Nat) (start : String) (comps : List ZarfComponent) :
    ∀ (deps : List String) (st : Bool × List String), st.1 = true →
      (deps.foldl (fun st dep =>
        if st.1 then st else hasDependencyCycleF m start comps dep st.2) st).1 = true := by
  intro deps
  induction deps with
  | nil => intro st h; simpa using h
  | cons d ds ihd =>
    intro st h
    simp only [List.foldl_cons, h, if_pos]
    exact ihd st h

/-- If `start` itself occurs among the remaining dependencies, the fold
returns `true` (the DFS revisits its start). -/
theorem hdcFold_finds_start (m : Nat) (start : String) (comps : List ZarfComponent)
    (hm : m ≠ 0) :
    ∀ (deps : List String) (st : Bool × List String), start ∈ deps → st.1 = false →
      st.2 ≠ [] →
      (deps.foldl (fun st dep =>
        if st.1 then st else hasDependencyCycleF m start comps dep st.2) st).1 = true := by
  intro deps
  induction deps with
  | nil => intro st h; exact absurd h (List.not_mem_nil _)
  | cons d ds ihd =>
    intro st hmem hf hne
    simp only [List.foldl_cons, hf]
    rw [if_neg (by simp [hf])]
    rcases List.mem_cons.mp hmem with heq | hmem'
    · obtain ⟨k, rfl⟩ := Nat.exists_eq_succ_of_ne_zero hm
      rw [← heq, hdcF_at_start k start comps st.2 hne]
      exact hdcFold_keeps_true _ _ _ ds (true, st.2) rfl
    · cases hb : (hasDependencyCycleF m start comps d st.2).1 with
      | true => exact hdcFold_keeps_true _ _ _ ds _ hb
      | false =>
        apply ihd _ hmem' hb
        have h1 := hdcF_len_mono m start comps d st.2
        have h2 : 0 < st.2.length := List.length_pos.mpr hne
        exact List.ne_nil_of_length_pos (lt_of_lt_of_le h2 h1)

/-- A back-edge to `start` from the map entry of `current` makes the
per-edge DFS `hasDependencyCycle start current` report a cycle — with
the fuel the dependency pass supplies. -/
theorem hasDependencyCycle_backedge {comps : List ZarfComponent}
    {start current : String} {cB : ZarfComponent}
    (hl : lookupComp comps current = some cB) (hmem : start ∈ cB.depsWith) :
    hasDependencyCycle start current comps = true := by
  have hne : comps ≠ [] := by
    intro h; subst h; simp [lookupComp] at hl
  obtain ⟨k, hk⟩ : ∃ k, comps.length = k + 1 := by
    cases hcl : comps.length with
    | zero => exact absurd (List.length_eq_zero.mp hcl) hne
    | succ k => exact ⟨k, rfl⟩
  unfold hasDependencyCycle
  rw [hk]
  show (hasDependencyCycleF (k + 1 + 1) start comps current []).1 = true
  simp only [hasDependencyCycleF, List.length_nil, List.contains_nil, hl]
  rw [if_neg (by simp)]
  exact hdcFold_finds_start (k + 1) start comps (by omega) cB.depsWith
    (false, [current]) hmem rfl (by simp)

/-- Number of components carrying a given name. -/
def nameOccurrences (X : String) (comps : List ZarfComponent) : Nat :=
  (comps.filter fun c => c.name = X).length

theorem componentChecks_cons (c : ZarfComponent) (cs : List ZarfComponent)
    (seen : List String) :
    (componentChecks (c :: cs) seen).1 =
      (if seen.contains c.name then ["Duplicate component name: " ++ c.name] else []) ++
      (componentChecks cs (c.name :: seen)).1 := by
  rfl

/-- The duplicate-name error for `X` is emitted once per occurrence of
`X` beyond the first (or per occurrence, when `X` is already seen). -/
theorem componentChecks_dup_count (X : String) :
    ∀ (comps : List ZarfComponent) (seen : List String),
      ((componentChecks comps seen).1).count ("Duplicate component name: " ++ X) =
        if X ∈ seen then nameOccurrences X comps
        else nameOccurrences X comps - 1 := by
  intro comps
  induction comps with
  | nil =>
    intro seen
    simp [componentChecks, nameOccurrences]
  | cons c cs ih =>
    intro seen
    rw [componentChecks_cons, List.count_append, ih]
    by_cases hcx : c.name = X
    · subst hcx
      by_cases hs : c.name ∈ seen <;>
        (simp [hs, nameOccurrences, List.filter_cons]; try omega)
    · have hmsg : ¬("Duplicate component name: " ++ c.name =
          "Duplicate component name: " ++ X) :=
        fun h => hcx (strAppend_cancel_left h)
      have hocc : nameOccurrences X (c :: cs) = nameOccurrences X cs := by
        simp [nameOccurrences, List.filter_cons, hcx]
      have hxc : ¬ X = c.name := fun h => hcx h.symm
      rw [hocc]
      by_cases hs : c.name ∈ seen <;> by_cases hX : X ∈ seen <;>
        simp [hs, hX, hxc, hmsg, List.count_cons]

theorem validateBasic_isOk (env : Env) (pkg : String) :
    ∃ r, validateBasic env pkg = .ok r := by
  unfold validateBasic
  cases ReadZarfYaml env (pathJoin pkg "zarf.yaml") with
  | error e => exact ⟨_, rfl⟩
  | ok y => exact ⟨_, rfl⟩

/-- Every warning `validateBasic` can record is one of its two fixed
metadata warnings. -/
theorem validateBasic_warnings (env : Env) (pkg : String) (r : ValidationResult)
    (h : validateBasic env pkg = .ok r) :
    ∀ w ∈ r.warnings,
      w = "No version specified in metadata" ∨
      w = "No description provided in metadata" := by
  unfold validateBasic at h
  cases hr : ReadZarfYaml env (pathJoin pkg "zarf.yaml") with
  | error e =>
    rw [hr] at h
    injection h with h
    subst h
    simp
  | ok y =>
    rw [hr] at h
    injection h with h
    subst h
    dsimp only
    split_ifs <;> simp

theorem pinScanLine_errors (st : Bool × ValidationResult) (line : String) :
    ((pinScanLine st line).2).errors = st.2.errors := by
  unfold pinScanLine
  dsimp only
  split_ifs <;> rfl

theorem pinFold_errors :
    ∀ (lines : List String) (st : Bool × ValidationResult),
      ((lines.foldl pinScanLine st).2).errors = st.2.errors := by
  intro lines
  induction lines with
  | nil => intro st; rfl
  | cons l ls ih =>
    intro st
    rw [List.foldl_cons, ih, pinScanLine_errors]

theorem string_mk_data (s : String) : String.mk s.data = s := by cases s; rfl

theorem sdata_ne_nil {s : String} (h : s ≠ "") : s.data ≠ [] := by
  intro hd
  apply h
  rw [← string_mk_data s, hd]

theorem head_false_of_dropWhile_eq {p : Char → Bool} {c : Char} {t : List Char}
    (h : (c :: t).dropWhile p = c :: t) : p c = false := by
  cases hc : p c
  · rfl
  · exfalso
    rw [List.dropWhile_cons, if_pos hc] at h
    have hle := (List.dropWhile_suffix (l := t) p).length_le
    rw [h] at hle
    simp at hle

/-- A string equal to its own two-sided trim is equal to each one-sided
trim as well. -/
theorem trimBoth_parts {p : Char → Bool} {l : List Char}
    (h : trimBothL p l = l) : trimLeftL p l = l ∧ trimRightL p l = l := by
  have h1 : (trimLeftL p l).length ≤ l.length := (List.dropWhile_suffix p).length_le
  have h2 : (trimRightL p (trimLeftL p l)).length ≤ (trimLeftL p l).length := by
    unfold trimRightL
    calc ((trimLeftL p l).reverse.dropWhile p).reverse.length
        = ((trimLeftL p l).reverse.dropWhile p).length := by simp
      _ ≤ (trimLeftL p l).reverse.length := (List.dropWhile_suffix p).length_le
      _ = (trimLeftL p l).length := by simp
  have hlen : (trimBothL p l).length = l.length := by rw [h]
  unfold trimBothL at hlen h
  have hL : (trimLeftL p l).length = l.length := by omega
  have hLeq : trimLeftL p l = l := (List.dropWhile_suffix p).eq_of_length hL
  exact ⟨hLeq, by rw [hLeq] at h; exact h⟩

/-- A nonempty string equal to its right trim ends in a character the
predicate rejects. -/
theorem trimRight_last {p : Char → Bool} {l : List Char}
    (h : trimRightL p l = l) (hne : l ≠ []) :
    ∃ c t, l.reverse = c :: t ∧ p c = false := by
  have hrev : l.reverse.dropWhile p = l.reverse := by
    unfold trimRightL at h
    have := congrArg List.reverse h
    simpa using this
  cases hc : l.reverse with
  | nil =>
    rw [List.reverse_eq_nil_iff] at hc
    exact absurd hc hne
  | cons c t =>
    rw [hc] at hrev
    exact ⟨c, t, rfl, head_false_of_dropWhile_eq hrev⟩

/-- Trimming an images-section item line `"  - " ++ s` yields
`"- " ++ s` when the reference `s` is nonempty and has no surrounding
whitespace. -/
theorem trimSpace_item {s : String} (hs : trimSpaceS s = s) (hne : s ≠ "") :
    trimSpaceS ("  - " ++ s) = "- " ++ s := by
  have hd : trimBothL isSpaceChar s.data = s.data := by
    have := congrArg String.data hs
    simpa [trimSpaceS] using this
  obtain ⟨hL, hR⟩ := trimBoth_parts hd
  obtain ⟨c, t, hrev, hpc⟩ := trimRight_last hR (sdata_ne_nil hne)
  have hdata : ("  - " ++ s).data = ' ' :: ' ' :: '-' :: ' ' :: s.data := by
    rw [sdata_append]; rfl
  unfold trimSpaceS trimBothL trimLeftL
  rw [hdata]
  have hsp : isSpaceChar ' ' = true := rfl
  have hdash : isSpaceChar '-' = false := rfl
  rw [List.dropWhile_cons, if_pos hsp, List.dropWhile_cons, if_pos hsp,
    List.dropWhile_cons, if_neg (by simp [hdash])]
  have hrw : ('-' :: ' ' :: s.data).reverse = c :: (t ++ [' ', '-']) := by
    simp [hrev]
  unfold trimRightL
  rw [hrw, List.dropWhile_cons, if_neg (by simp [hpc]), ← hrw]
  rw [List.reverse_reverse]
  have hdata2 : ("- " ++ s).data = '-' :: ' ' :: s.data := by
    rw [sdata_append]; rfl
  rw [← hdata2, string_mk_data]

theorem trimPre_dash (s : String) : trimPreS ("- " ++ s) "- " = s := by
  unfold trimPreS strStarts
  have hdata : ("- " ++ s).data = '-' :: ' ' :: s.data := by
    rw [sdata_append]; rfl
  rw [hdata]
  rw [if_pos (by simp [isPreL])]
  show String.mk (List.drop 2 ('-' :: ' ' :: s.data)) = s
  simp [string_mk_data]

/-- Substring search in `"- " ++ s` reduces to search in `s` when the
pattern starts with a character other than `-` and space. -/
theorem strContains_dash_item {s sub : String} {d : Char} {ds : List Char}
    (hsub : sub.data = d :: ds) (h1 : d ≠ '-') (h2 : d ≠ ' ') :
    strContains ("- " ++ s) sub = strContains s sub := by
  unfold strContains
  have hdata : ("- " ++ s).data = '-' :: ' ' :: s.data := by
    rw [sdata_append]; rfl
  rw [hdata, hsub]
  simp [containsL, isPreL, h1, h2]

theorem pinScanLine_imagesHeader (r : ValidationResult) :
    pinScanLine (false, r) "images:" = (true, r) := rfl

/-- Processing one images-section item line `"  - " ++ s`: a warning is
recorded exactly when the reference `s` has a tag separator, no digest,
and is not a template placeholder. -/
theorem pinScanLine_item {r : ValidationResult} {s : String}
    (hts : trimSpaceS s = s) (htq : trimQuotesS s = s) (hne : s ≠ "")
    (h1 : strContains s "images:" = false) (h2 : strContains s "image:" = false) :
    pinScanLine (true, r) ("  - " ++ s) =
      (true,
       if strContains s ":" && !strContains s "@sha256:" then
         if !strStarts s "\x7b\x7b" && !strStarts s "$\x7b" then
           { r with warnings := r.warnings ++ ["Image not pinned with digest - " ++ s] }
         else r
       else r) := by
  have hdata4 : ("  - " ++ s).data = ' ' :: ' ' :: '-' :: ' ' :: s.data := by
    rw [sdata_append]; rfl
  have hdata2 : ("- " ++ s).data = '-' :: ' ' :: s.data := by
    rw [sdata_append]; rfl
  have hline : trimSpaceS ("  - " ++ s) = "- " ++ s := trimSpace_item hts hne
  have hci : strContains ("- " ++ s) "images:" = false := by
    rw [strContains_dash_item rfl (by decide) (by decide)]; exact h1
  have hci2 : strContains ("- " ++ s) "image:" = false := by
    rw [strContains_dash_item rfl (by decide) (by decide)]; exact h2
  have hsp1 : strStarts ("  - " ++ s) " " = true := by
    unfold strStarts; rw [hdata4]; rfl
  have hsp2 : strStarts ("- " ++ s) "- " = true := by
    unfold strStarts; rw [hdata2]; rfl
  have hname : trimQuotesS (trimSpaceS (trimPreS ("- " ++ s) "- ")) = s := by
    rw [trimPre_dash, hts, htq]
  dsimp only [pinScanLine]
  rw [hline, hci, hci2, hsp1, hsp2, hname]
  simp

/-! ## Concrete scenario environments -/

/-- Environment for a single package at `pkg` whose manifest text
`"raw"` parses to `y`: the Zarf CLI is present, `zarf dev lint`
succeeds with empty output, and no previous Git revision exists. -/
def mkEnv (y : ZarfYaml) : Env :=
  { statExists := fun p => p = "pkg/zarf.yaml"
    readFile := fun p => if p = "pkg/zarf.yaml" then some "raw" else none
    fileSize := fun _ => none
    parseZarf := fun c => if c = "raw" then .ok y else .error "bad yaml"
    zarfVersionOk := true
    lintCreateOk := true
    lintOk := true
    lintOutput := ""
    gitShowPrev := fun _ => none
    catFile := fun _ => "raw" }

/-- A manifest with a duplicated component name. -/
def dupNameYaml : ZarfYaml :=
  { kind := "ZarfPackageConfig"
    metadata := { name := "test", version := "1.0.0", description := "d" }
    components := [{ name := "web" }, { name := "web" }] }

/-- The spec's self-dependency scenario manifest. -/
def selfDepYaml : ZarfYaml :=
  { kind := "ZarfPackageConfig"
    metadata := { name := "test", version := "1.0.0", description := "d" }
    components := [{ name := "web", depsWith := ["web"] }] }

/-- A well-formed manifest with a single component. -/
def basicOkYaml : ZarfYaml :=
  { kind := "ZarfPackageConfig"
    metadata := { name := "test", version := "1.0.0", description := "d" }
    components := [{ name := "web" }] }

/-- Two components with the same name, the first with a self-loop: the
component map resolves `"a"` to the second one. -/
def shadowedSelfYaml : ZarfYaml :=
  { kind := "ZarfPackageConfig"
    metadata := { name := "test", version := "1.0.0", description := "d" }
    components := [{ name := "a", depsWith := ["a"] }, { name := "a" }] }

/-- The acyclic diamond a→b, a→c, b→d, c→d. -/
def diamondComponents : List ZarfComponent :=
  [{ name := "a", depsWith := ["b", "c"] }, { name := "b", depsWith := ["d"] },
   { name := "c", depsWith := ["d"] }, { name := "d" }]

def diamondYaml : ZarfYaml :=
  { kind := "ZarfPackageConfig"
    metadata := { name := "test", version := "1.0.0", description := "d" }
    components := diamondComponents }

/-- The two-node cycle a→b→a. -/
def twoCycleYaml : ZarfYaml :=
  { kind := "ZarfPackageConfig"
    metadata := { name := "test", version := "1.0.0", description := "d" }
    components := [{ name := "a", depsWith := ["b"] }, { name := "b", depsWith := ["a"] }] }

/-- Environment where the Zarf CLI cannot be located. -/
def noCliEnv : Env := { mkEnv basicOkYaml with zarfVersionOk := false }

/-- A fresh result record, as the passes receive it. -/
def emptyResult : ValidationResult :=
  { packagePath := "pkg", valid := true, errors := [], warnings := [] }

/-- Environment whose previous revision exists, parses to the same
version, but whose captured file content differs from it. -/
def stuckVersionEnv : Env :=
  { mkEnv basicOkYaml with
    gitShowPrev := fun _ => some "prevraw"
    parseZarf := fun c =>
      if c = "raw" then .ok basicOkYaml
      else if c = "prevraw" then .ok basicOkYaml
      else .error "bad yaml" }

/-- Environment whose previous revision exists and carries a different
`metadata.version`. -/
def bumpedVersionEnv : Env :=
  { mkEnv basicOkYaml with
    gitShowPrev := fun _ => some "prevraw"
    parseZarf := fun c =>
      if c = "raw" then .ok basicOkYaml
      else if c = "prevraw" then
        .ok { basicOkYaml with metadata := { basicOkYaml.metadata with version := "0.9.0" } }
      else .error "bad yaml" }

/-! ## Claim theorems -/

/-- C1: the spec claims `Valid` is true iff `Errors` is empty at the
end of the pipeline.  The code violates this: on a package whose
`zarf dev lint` succeeds but whose manifest has a duplicate component
name, the pipeline ends with a non-empty `Errors` list while `Valid`
remains `true`, because `validateComponents` (and the dependency pass)
append errors without clearing `Valid`. -/
theorem c1_valid_errors_desync :
    ∃ r, ValidatePackage (mkEnv dupNameYaml) true "pkg" = (.ok r, true) ∧
      r.errors = ["Duplicate component name: web"] ∧ r.valid = true :=
  ⟨_, rfl, rfl, rfl⟩

/-- C2: for the `web`-depends-on-`web` package, the self-dependency
error is recorded in the result's `Errors`, yet `HasValidationErrors`
on the batch returns `false` — it inspects the `Valid` flag, which the
dependency pass never clears. -/
theorem c2_selfdep_recorded_but_batch_clean :
    ∃ rs, (ValidatePackagesV (mkEnv selfDepYaml) true ["pkg"]).1 = .ok rs ∧
      (∃ r ∈ rs, "Component 'web' cannot depend on itself" ∈ r.errors) ∧
      HasValidationErrors rs = false := by
  refine ⟨_, rfl, ?_, rfl⟩
  decide

/-- C3 counterexample: for previous `1.0.0` and next `1.1.0`, the next
version satisfies the caret range anchored at the previous one (the
spec-modelled predicate returns `true`), yet `BreakingChangeAllowed`
returns `false` with no error: the function returns the negation of
what the claim states. -/
theorem c3_counterexample :
    BreakingChangeAllowed "1.0.0" "1.1.0" = (false, none) ∧
    specBreakingChangeAllowed "1.0.0" "1.1.0" = some true :=
  ⟨rfl, rfl⟩

/-- C3 amended: for version strings that parse, `BreakingChangeAllowed`
returns the NEGATION of "next satisfies the compatible-range constraint
anchored at previous" (caret-style for major ≥ 1, tilde-style for major
0), pairing `true` with the non-nil validation-reasons error; a parse
failure of either side surfaces as an error with `false`. -/
theorem c3_breaking_change_negated :
    (∀ l r b, specBreakingChangeAllowed l r = some b →
      BreakingChangeAllowed l r =
        (!b, if b then none else some "constraint validation failed")) ∧
    (∀ l r, specBreakingChangeAllowed l r = none →
      BreakingChangeAllowed l r = (false, some "failed parsing semantic version")) := by
  constructor
  · intro l r b h
    unfold specBreakingChangeAllowed at h
    unfold BreakingChangeAllowed
    cases hl : parseSemVer l with
    | none => rw [hl] at h; simp at h
    | some lv =>
      cases hr : parseSemVer r with
      | none => rw [hl, hr] at h; simp at h
      | some rv =>
        rw [hl, hr] at h
        simp only [Option.some.injEq] at h
        subst h
        rfl
  · intro l r h
    unfold specBreakingChangeAllowed at h
    unfold BreakingChangeAllowed
    cases hl : parseSemVer l with
    | none => rfl
    | some lv =>
      cases hr : parseSemVer r with
      | none => rfl
      | some rv => rw [hl, hr] at h; simp at h

/-- C3 witness: a major bump out of the caret range is reported with
`true` and a non-nil error. -/
theorem c3_witness :
    specBreakingChangeAllowed "1.0.0" "2.0.0" = some false ∧
    BreakingChangeAllowed "1.0.0" "2.0.0" =
      (true, some "constraint validation failed") :=
  ⟨rfl, c3_breaking_change_negated.1 "1.0.0" "2.0.0" false rfl⟩

/-- C4 counterexample: with the lint tool unavailable, the returned
result is the fallback validation's — but its warning list is empty:
the "falling back" warning was appended to a local result object that
`ValidatePackage` abandons. -/
theorem c4_counterexample :
    ∃ r, ValidatePackage noCliEnv true "pkg" = (.ok r, false) ∧ r.warnings = [] :=
  ⟨_, rfl, rfl⟩

/-- C4 amended: when the lint tool cannot be located, `ValidatePackage`
returns no fatal error and hands back exactly the reduced fallback
validation's result (and clears the sticky `UseSDK` flag); however the
returned result never contains the fallback-recording warning — that
warning is appended to a discarded intermediate object. -/
theorem c4_fallback_amended (env : Env) (pkg : String)
    (hpkg : IsZarfPackage env pkg = true) (hcli : env.zarfVersionOk = false) :
    ValidatePackage env true pkg = (validateBasic env pkg, false) ∧
    ∃ r, validateBasic env pkg = .ok r ∧
      ∀ w ∈ r.warnings, ¬ strStarts w "Zarf CLI validation failed" = true := by
  constructor
  · have hsdk : validateWithSDK env pkg =
        .error "zarf CLI not found - please install Zarf CLI for full validation" := by
      unfold validateWithSDK
      rw [hcli]
      rfl
    unfold ValidatePackage
    rw [hpkg, hsdk]
    rfl
  · obtain ⟨r, hr⟩ := validateBasic_isOk env pkg
    refine ⟨r, hr, ?_⟩
    intro w hw
    rcases validateBasic_warnings env pkg r hr w hw with h | h <;> subst h <;> decide

/-- C4 witness: the fallback path at the concrete no-CLI environment. -/
theorem c4_witness :
    IsZarfPackage noCliEnv "pkg" = true ∧ noCliEnv.zarfVersionOk = false ∧
    (ValidatePackage noCliEnv true "pkg" = (validateBasic noCliEnv "pkg", false) ∧
      ∃ r, validateBasic noCliEnv "pkg" = .ok r ∧
        ∀ w ∈ r.warnings, ¬ strStarts w "Zarf CLI validation failed" = true) :=
  ⟨rfl, rfl, c4_fallback_amended noCliEnv "pkg" rfl rfl⟩

/-- C5: the version-increment pass (i) records only a warning when the
previous revision cannot be retrieved, (ii) records an error naming the
unchanged version when the versions are equal but the captured manifest
content differs, and (iii) records nothing when the versions differ,
whatever the content. -/
theorem c5_version_increment :
    (∀ (env : Env) (pkg : String) (r : ValidationResult) (y : ZarfYaml),
      ReadZarfYaml env (pathJoin pkg "zarf.yaml") = .ok y →
      env.gitShowPrev (pathJoin pkg "zarf.yaml") = none →
      validateVersionIncrement env pkg r =
        .ok { r with warnings := r.warnings ++
                ["Could not retrieve previous package version for comparison"] }) ∧
    (∀ (env : Env) (pkg : String) (r : ValidationResult) (y py : ZarfYaml)
       (prev : String),
      ReadZarfYaml env (pathJoin pkg "zarf.yaml") = .ok y →
      env.gitShowPrev (pathJoin pkg "zarf.yaml") = some prev →
      env.parseZarf prev = .ok py →
      y.metadata.version = py.metadata.version →
      env.catFile (pathJoin pkg "zarf.yaml") ≠ prev →
      validateVersionIncrement env pkg r =
        .ok { r with
              errors := r.errors ++
                ["Package content changed but version not incremented (still " ++
                  y.metadata.version ++ ")"]
              valid := false }) ∧
    (∀ (env : Env) (pkg : String) (r : ValidationResult) (y py : ZarfYaml)
       (prev : String),
      ReadZarfYaml env (pathJoin pkg "zarf.yaml") = .ok y →
      env.gitShowPrev (pathJoin pkg "zarf.yaml") = some prev →
      env.parseZarf prev = .ok py →
      y.metadata.version ≠ py.metadata.version →
      validateVersionIncrement env pkg r = .ok r) := by
  refine ⟨?_, ?_, ?_⟩
  · intro env pkg r y hread hprev
    unfold validateVersionIncrement
    dsimp only
    rw [hread, hprev]
  · intro env pkg r y py prev hread hprev hparse hv hneq
    unfold validateVersionIncrement
    dsimp only
    rw [hread, hprev]
    dsimp only
    rw [hparse]
    dsimp only
    rw [if_pos hv, if_pos hneq]
  · intro env pkg r y py prev hread hprev hparse hv
    unfold validateVersionIncrement
    dsimp only
    rw [hread, hprev]
    dsimp only
    rw [hparse]
    dsimp only
    rw [if_neg hv]

/-- C5 witness: the three behaviours at concrete environments. -/
theorem c5_witness :
    (validateVersionIncrement (mkEnv basicOkYaml) "pkg" emptyResult =
      .ok { emptyResult with warnings := emptyResult.warnings ++
              ["Could not retrieve previous package version for comparison"] }) ∧
    (validateVersionIncrement stuckVersionEnv "pkg" emptyResult =
      .ok { emptyResult with
            errors := emptyResult.errors ++
              ["Package content changed but version not incremented (still 1.0.0)"]
            valid := false }) ∧
    (validateVersionIncrement bumpedVersionEnv "pkg" emptyResult = .ok emptyResult) :=
  ⟨c5_version_increment.1 (mkEnv basicOkYaml) "pkg" emptyResult basicOkYaml rfl rfl,
   c5_version_increment.2.1 stuckVersionEnv "pkg" emptyResult basicOkYaml basicOkYaml
     "prevraw" rfl rfl rfl rfl (by decide),
   c5_version_increment.2.2 bumpedVersionEnv "pkg" emptyResult basicOkYaml
     { basicOkYaml with metadata := { basicOkYaml.metadata with version := "0.9.0" } }
     "prevraw" rfl rfl rfl (by decide)⟩

/-- C6: for every component graph containing the two-node cycle A→B→A
(both components declared — B resolved through the component map), the
dependency pass records the circular-dependency error for the edge
(A, B); and on the acyclic diamond a→b, a→c, b→d, c→d the pass records
no error at all. -/
theorem c6_cycle_detection :
    (∀ (env : Env) (pkg : String) (r : ValidationResult) (y : ZarfYaml)
       (A B : String) (cA cB : ZarfComponent),
       ReadZarfYaml env (pathJoin pkg "zarf.yaml") = .ok y →
       cA ∈ y.components → cA.name = A → B ∈ cA.depsWith →
       lookupComp y.components B = some cB → A ∈ cB.depsWith →
       ∃ r', validateComponentDependencies env pkg r = .ok r' ∧
         ("Circular dependency detected between '" ++ A ++ "' and '" ++ B ++ "'") ∈
           r'.errors) ∧
    (∀ (env : Env) (pkg : String) (r : ValidationResult) (y : ZarfYaml),
       ReadZarfYaml env (pathJoin pkg "zarf.yaml") = .ok y →
       y.components = diamondComponents →
       validateComponentDependencies env pkg r = .ok r) := by
  constructor
  · intro env pkg r y A B cA cB hread hA hAname hAB hB hBA
    have hcyc : hasDependencyCycle A B y.components = true :=
      hasDependencyCycle_backedge hB hBA
    have hne : y.components.isEmpty = false := by
      cases hcomps : y.components with
      | nil => rw [hcomps] at hA; exact absurd hA (List.not_mem_nil _)
      | cons a l => rfl
    have hpass : validateComponentDependencies env pkg r =
        .ok { r with errors := r.errors ++
                y.components.flatMap (compDepErrors y.components) } := by
      unfold validateComponentDependencies
      rw [hread]
      dsimp only
      rw [hne]
      rfl
    refine ⟨_, hpass, ?_⟩
    dsimp only
    apply List.mem_append_right
    refine List.mem_flatMap.mpr ⟨cA, hA, ?_⟩
    unfold compDepErrors
    apply List.mem_append_left
    refine List.mem_flatMap.mpr ⟨B, hAB, ?_⟩
    apply List.mem_append_right
    rw [hAname, hcyc]
    simp
  · intro env pkg r y hread hcomps
    unfold validateComponentDependencies
    rw [hread]
    dsimp only
    rw [hcomps]
    have hflat : diamondComponents.flatMap (compDepErrors diamondComponents) = [] := rfl
    rw [hflat]
    simp

/-- C6 witness: the cycle found on the concrete two-node cycle a↔b, and
the diamond left untouched. -/
theorem c6_witness :
    (∃ r', validateComponentDependencies (mkEnv twoCycleYaml) "pkg" emptyResult =
        .ok r' ∧
      ("Circular dependency detected between '" ++ "a" ++ "' and '" ++ "b" ++ "'") ∈
        r'.errors) ∧
    validateComponentDependencies (mkEnv diamondYaml) "pkg" emptyResult =
      .ok emptyResult :=
  ⟨c6_cycle_detection.1 (mkEnv twoCycleYaml) "pkg" emptyResult twoCycleYaml
      "a" "b" { name := "a", depsWith := ["b"] } { name := "b", depsWith := ["a"] }
      rfl (by decide) rfl (by decide) rfl (by decide),
   c6_cycle_detection.2 (mkEnv diamondYaml) "pkg" emptyResult diamondYaml rfl rfl⟩

/-- C7: the component pass appends exactly `n - 1` duplicate-name
errors for a name occurring `n` times (so none for a name occurring
once or not at all). -/
theorem c7_duplicate_count (env : Env) (pkg : String) (r : ValidationResult)
    (y : ZarfYaml) (X : String)
    (hread : ReadZarfYaml env (pathJoin pkg "zarf.yaml") = .ok y) :
    ∃ r', validateComponents env pkg r = .ok r' ∧
      r'.errors.count ("Duplicate component name: " ++ X) =
        r.errors.count ("Duplicate component name: " ++ X) +
          (nameOccurrences X y.components - 1) := by
  unfold validateComponents
  rw [hread]
  dsimp only
  by_cases hc : y.components.isEmpty
  · rw [if_pos hc]
    refine ⟨_, rfl, ?_⟩
    have h0 : y.components = [] := List.isEmpty_iff.mp hc
    simp [h0, nameOccurrences]
  · rw [if_neg hc]
    refine ⟨_, rfl, ?_⟩
    dsimp only
    rw [List.count_append, componentChecks_dup_count]
    simp

/-- C7 witness: two components named `web` produce exactly one
duplicate error. -/
theorem c7_witness :
    ∃ r', validateComponents (mkEnv dupNameYaml) "pkg" emptyResult = .ok r' ∧
      r'.errors.count ("Duplicate component name: " ++ "web") =
        emptyResult.errors.count ("Duplicate component name: " ++ "web") +
          (nameOccurrences "web" dupNameYaml.components - 1) :=
  c7_duplicate_count (mkEnv dupNameYaml) "pkg" emptyResult dupNameYaml "web" rfl

/-- C8: the image-pinning pass never touches the error list, and an
images-section item is warned about exactly when it contains a tag
separator, no `@sha256:` digest, and does not start with a template
placeholder — the warning naming the reference. -/
theorem c8_image_pinning :
    (∀ (env : Env) (pkg : String) (r : ValidationResult) (content : String),
       env.readFile (pathJoin pkg "zarf.yaml") = some content →
       ∃ r', validateImagePinning env pkg r = .ok r' ∧ r'.errors = r.errors) ∧
    (∀ (r : ValidationResult) (s : String),
       trimSpaceS s = s → trimQuotesS s = s → s ≠ "" →
       strContains s "images:" = false → strContains s "image:" = false →
       (["images:", "  - " ++ s].foldl pinScanLine (false, r)).2 =
         (if strContains s ":" && !strContains s "@sha256:" then
            if !strStarts s "\x7b\x7b" && !strStarts s "$\x7b" then
              { r with warnings := r.warnings ++
                  ["Image not pinned with digest - " ++ s] }
            else r
          else r)) := by
  constructor
  · intro env pkg r content hrf
    unfold validateImagePinning
    rw [hrf]
    exact ⟨_, rfl, pinFold_errors (splitLinesS content) (false, r)⟩
  · intro r s h1 h2 h3 h4 h5
    rw [List.foldl_cons, pinScanLine_imagesHeader, List.foldl_cons,
      pinScanLine_item h1 h2 h3 h4 h5, List.foldl_nil]

/-- C8 witness: `nginx:1.21` warned; `nginx@sha256:abcd` and
`\x7b\x7b .Image \x7d\x7d` exempt; the pass preserves the error list on
a concrete package. -/
theorem c8_witness :
    ((["images:", "  - " ++ "nginx:1.21"].foldl pinScanLine (false, emptyResult)).2 =
      { emptyResult with warnings := emptyResult.warnings ++
          ["Image not pinned with digest - " ++ "nginx:1.21"] }) ∧
    ((["images:", "  - " ++ "nginx@sha256:abcd"].foldl pinScanLine
        (false, emptyResult)).2 = emptyResult) ∧
    ((["images:", "  - " ++ "\x7b\x7b .Image \x7d\x7d"].foldl pinScanLine
        (false, emptyResult)).2 = emptyResult) ∧
    (∃ r', validateImagePinning (mkEnv basicOkYaml) "pkg" emptyResult = .ok r' ∧
      r'.errors = emptyResult.errors) := by
  refine ⟨?_, ?_, ?_, c8_image_pinning.1 (mkEnv basicOkYaml) "pkg" emptyResult "raw" rfl⟩
  · rw [c8_image_pinning.2 emptyResult "nginx:1.21" (by decide) (by decide)
      (by decide) (by decide) (by decide)]
    rfl
  · rw [c8_image_pinning.2 emptyResult "nginx@sha256:abcd" (by decide) (by decide)
      (by decide) (by decide) (by decide)]
    rfl
  · rw [c8_image_pinning.2 emptyResult "\x7b\x7b .Image \x7d\x7d" (by decide)
      (by decide) (by decide) (by decide) (by decide)]
    rfl

theorem FindZarfPackages_cons (fs : WalkFS) (dir : String) (dirs : List String) :
    FindZarfPackages fs (dir :: dirs) =
      match findPackagesInDirectory fs dir with
      | .error e => .error ("failed to find packages in directory " ++ dir ++ ": " ++ e)
      | .ok packages =>
        match FindZarfPackages fs dirs with
        | .error e => .error e
        | .ok rest => .ok (packages ++ rest) := rfl

/-- C9: a root directory that does not exist contributes nothing to the
locator's result and raises no error; in particular, `["packages"]`
with no `packages/` directory yields the empty list and no error. -/
theorem c9_locator_missing_root :
    (∀ (fs : WalkFS) (xs ys : List String) (d : String),
       fs.statExists d = false →
       FindZarfPackages fs (xs ++ d :: ys) = FindZarfPackages fs (xs ++ ys)) ∧
    (∀ fs : WalkFS, fs.statExists "packages" = false →
       FindZarfPackages fs ["packages"] = .ok []) := by
  constructor
  · intro fs xs ys d hd
    have hmiss : findPackagesInDirectory fs d = .ok [] := by
      unfold findPackagesInDirectory
      rw [hd]
      rfl
    induction xs with
    | nil =>
      simp only [List.nil_append]
      rw [FindZarfPackages_cons, hmiss]
      cases hys : FindZarfPackages fs ys with
      | error e => rfl
      | ok rest => simp
    | cons x xs ihx =>
      simp only [List.cons_append]
      rw [FindZarfPackages_cons, ihx, ← FindZarfPackages_cons]
  · intro fs h
    have hmiss : findPackagesInDirectory fs "packages" = .ok [] := by
      unfold findPackagesInDirectory
      rw [h]
      rfl
    rw [show (["packages"] : List String) = "packages" :: [] from rfl,
      FindZarfPackages_cons, hmiss]
    rfl

/-- C9 witness: the locator on a filesystem with no roots at all. -/
theorem c9_witness :
    (FindZarfPackages ⟨fun _ => false, fun _ => .error "unused"⟩
        (["a"] ++ "d" :: []) =
      FindZarfPackages ⟨fun _ => false, fun _ => .error "unused"⟩ (["a"] ++ [])) ∧
    FindZarfPackages ⟨fun _ => false, fun _ => .error "unused"⟩ ["packages"] =
      .ok [] :=
  ⟨c9_locator_missing_root.1 ⟨fun _ => false, fun _ => .error "unused"⟩
      ["a"] [] "d" rfl,
   c9_locator_missing_root.2 ⟨fun _ => false, fun _ => .error "unused"⟩ rfl⟩

/-- C10 counterexample: a component listing its own name for which the
pass records only ONE error.  With two components both named `a`, the
first carrying the self-loop, the component map resolves `a` to the
second (last assignment wins), so the per-edge DFS finds no cycle and
only the self-dependency error is recorded — not two errors. -/
theorem c10_counterexample :
    ∃ r', validateComponentDependencies (mkEnv shadowedSelfYaml) "pkg" emptyResult =
        .ok r' ∧
      r'.errors = ["Component 'a' cannot depend on itself"] :=
  ⟨_, rfl, rfl⟩

/-- C10 amended: when the component with the self-loop is the one its
name resolves to in the component map (in particular whenever names are
unique), the dependency pass records both the circular-dependency error
and the self-dependency error for that single edge. -/
theorem c10_selfloop_two_errors (env : Env) (pkg : String) (r : ValidationResult)
    (y : ZarfYaml) (c : ZarfComponent)
    (hread : ReadZarfYaml env (pathJoin pkg "zarf.yaml") = .ok y)
    (hc : c ∈ y.components) (hlk : lookupComp y.components c.name = some c)
    (hself : c.name ∈ c.depsWith) :
    ∃ r', validateComponentDependencies env pkg r = .ok r' ∧
      ("Circular dependency detected between '" ++ c.name ++ "' and '" ++
        c.name ++ "'") ∈ r'.errors ∧
      ("Component '" ++ c.name ++ "' cannot depend on itself") ∈ r'.errors := by
  have hcyc : hasDependencyCycle c.name c.name y.components = true :=
    hasDependencyCycle_backedge hlk hself
  have hne : y.components.isEmpty = false := by
    cases hcomps : y.components with
    | nil => rw [hcomps] at hc; exact absurd hc (List.not_mem_nil _)
    | cons a l => rfl
  have hpass : validateComponentDependencies env pkg r =
      .ok { r with errors := r.errors ++
              y.components.flatMap (compDepErrors y.components) } := by
    unfold validateComponentDependencies
    rw [hread]
    dsimp only
    rw [hne]
    rfl
  refine ⟨_, hpass, ?_, ?_⟩
  · dsimp only
    apply List.mem_append_right
    refine List.mem_flatMap.mpr ⟨c, hc, ?_⟩
    unfold compDepErrors
    apply List.mem_append_left
    refine List.mem_flatMap.mpr ⟨c.name, hself, ?_⟩
    apply List.mem_append_right
    rw [hcyc]
    simp
  · dsimp only
    apply List.mem_append_right
    refine List.mem_flatMap.mpr ⟨c, hc, ?_⟩
    unfold compDepErrors
    apply List.mem_append_right
    refine List.mem_filterMap.mpr ⟨c.name, hself, ?_⟩
    rw [if_pos rfl]

/-- C10 witness: both errors present and distinct on the unique-name
self-loop package. -/
theorem c10_witness :
    (∃ r', validateComponentDependencies (mkEnv selfDepYaml) "pkg" emptyResult =
        .ok r' ∧
      ("Circular dependency detected between '" ++ "web" ++ "' and '" ++
        "web" ++ "'") ∈ r'.errors ∧
      ("Component '" ++ "web" ++ "' cannot depend on itself") ∈ r'.errors) ∧
    ("Circular dependency detected between '" ++ "web" ++ "' and '" ++
      "web" ++ "'") ≠ ("Component '" ++ "web" ++ "' cannot depend on itself") :=
  ⟨c10_selfloop_two_errors (mkEnv selfDepYaml) "pkg" emptyResult selfDepYaml
      { name := "web", depsWith := ["web"] } rfl (by decide) rfl (by decide),
   by decide⟩

end ZarfTesting
